import Mathlib

/-!
Verification of the Kuhn poker engine in `pgx/kuhn_poker.py`.

The embedding mirrors the source module:
* `State` embeds the `State` dataclass (fields `current_player`, `_cards`,
  `_last_action`, `legal_action_mask`, `terminated`, `rewards`, `_pot`);
  the leading underscores of the Python field names are dropped.
  Machine `int8` values are modelled as `Int` (none of the arithmetic in the
  source can overflow an int8: pots stay below 2, actions are 0..3).
  `rewards` is a `float32` pair in the source, but every value it ever holds
  is one of 0, ±1, ±2 (and the only arithmetic is `* 2`), all exact in
  float32, so `Int × Int` is a faithful model.
* Players are seats `Fin 2`, matching the 2-element arrays of the source;
  actions are `Fin 4` (0=CALL, 1=BET, 2=FOLD, 3=CHECK), the enumerated
  domain of `_step`'s switch table.
* The random draws of `_init` (a fair bit for the first player and a uniform
  choice among the 6 ordered deals) are modelled as explicit parameters
  `b : Fin 2`, `d : Fin 6`.
* `_observe` writes into a 7-slot boolean vector with `jnp` scatter updates;
  `upd7` models one such update (an out-of-range index updates nothing,
  which is jax's drop semantics for out-of-bounds scatters; all indices are
  in range on valid states anyway).
-/

namespace KuhnPoker

/-- Action code CALL = `jnp.int8(0)`. -/
def CALL : Fin 4 := 0

/-- Action code BET = `jnp.int8(1)`. -/
def BET : Fin 4 := 1

/-- Action code FOLD = `jnp.int8(2)`. -/
def FOLD : Fin 4 := 2

/-- Action code CHECK = `jnp.int8(3)`. -/
def CHECK : Fin 4 := 3

/-- The four-slot boolean legal-action mask `(call, bet, fold, check)`. -/
abbrev Mask := Bool × Bool × Bool × Bool

/-- Read a 2-element `Int` array at a seat index, as `arr[i]`. -/
def get2 (x : Int × Int) (i : Fin 2) : Int :=
  if i.val = 0 then x.1 else x.2

/-- Functional update of a 2-element `Int` array, as `arr.at[i].set(v)`. -/
def set2 (x : Int × Int) (i : Fin 2) (v : Int) : Int × Int :=
  if i.val = 0 then (v, x.2) else (x.1, v)

/-- Scale both entries, as multiplying a 2-element array by a scalar. -/
def mul2 (x : Int × Int) (k : Int) : Int × Int :=
  (x.1 * k, x.2 * k)

/-- Read the mask at an action index, as `mask[a]`. -/
def maskGet (m : Mask) (a : Fin 4) : Bool :=
  if a.val = 0 then m.1
  else if a.val = 1 then m.2.1
  else if a.val = 2 then m.2.2.1
  else m.2.2.2

/-- The game state: the fields of the `State` dataclass that the engine
    reads or writes (`observation`, `truncated`, `_rng_key` and
    `_step_count` are managed by the environment shell, not this module). -/
structure State where
  current_player : Fin 2
  cards : Int × Int
  last_action : Int
  legal_action_mask : Mask
  terminated : Bool
  rewards : Int × Int
  pot : Int × Int
deriving DecidableEq

/-- The 6 equally likely ordered deals of `_init`:
    `jnp.int8([[0, 1], [0, 2], [1, 0], [1, 2], [2, 0], [2, 1]])`. -/
def deals (d : Fin 6) : Int × Int :=
  if d.val = 0 then (0, 1)
  else if d.val = 1 then (0, 2)
  else if d.val = 2 then (1, 0)
  else if d.val = 3 then (1, 2)
  else if d.val = 4 then (2, 0)
  else (2, 1)

/-- Embeds `_init`: `b` is the bernoulli draw for the first player, `d` the uniform
    choice among the 6 ordered deals.  All other fields take the dataclass
    defaults (`rewards = [0,0]`, `terminated = False`, `_last_action = -1`,
    `_pot = [0,0]`), except the mask which is set to `[0, 1, 0, 1]`. -/
def init (b : Fin 2) (d : Fin 6) : State :=
  { current_player := b
    cards := deals d
    last_action := -1
    legal_action_mask := (false, true, false, true)
    terminated := false
    rewards := (0, 0)
    pot := (0, 0) }

/-- Embeds `_get_unit_reward`: the player with the larger card (ties, impossible on
    dealt hands, go to the non-acting player) gets `+1`, the other `-1`. -/
def get_unit_reward (s : State) : Int × Int :=
  if get2 s.cards s.current_player > get2 s.cards (1 - s.current_player) then
    set2 (-1, -1) s.current_player 1
  else
    set2 (-1, -1) (1 - s.current_player) 1

/-- The `jax.lax.switch` table of `_step` giving the next legal-action mask
    as a function of the action just taken. -/
def maskSwitch (a : Fin 4) : Mask :=
  if a.val = 0 then (false, false, false, false)
  else if a.val = 1 then (true, false, true, false)
  else if a.val = 2 then (false, false, false, false)
  else (false, true, false, true)

/-- Embeds `_step`: pot update, the three terminal/reward conditionals in source
    order (Fold, Bet→Call, Check→Check), the mask switch, and the final
    `state.replace(...)`. -/
def step (s : State) (a : Fin 4) : State :=
  let pot :=
    if a = BET ∨ a = CALL then
      set2 s.pot s.current_player (get2 s.pot s.current_player + 1)
    else s.pot
  let tr1 : Bool × (Int × Int) :=
    if a = FOLD then (true, set2 (-1, -1) (1 - s.current_player) 1)
    else (false, (0, 0))
  let tr2 :=
    if s.last_action = 1 ∧ a = CALL then (true, mul2 (get_unit_reward s) 2)
    else tr1
  let tr3 :=
    if s.last_action = 3 ∧ a = CHECK then (true, get_unit_reward s)
    else tr2
  { s with
    current_player := 1 - s.current_player
    last_action := (a.val : Int)
    legal_action_mask := maskSwitch a
    terminated := tr3.1
    rewards := tr3.2
    pot := pot }

/-- One scatter update `obs.at[i].set(True)` on a 7-slot boolean vector:
    slot `j` becomes true when its index equals `i`; an out-of-range `i`
    changes nothing. -/
def upd7 (o : Fin 7 → Bool) (i : Int) : Fin 7 → Bool :=
  fun j => if (j.val : Int) = i then true else o j

/-- Embeds `_observe`: one-hot marks for `player_id`'s own card, own pot
    contribution (offset 3) and the opponent's pot contribution (offset 5). -/
def observe (s : State) (p : Fin 2) : Fin 7 → Bool :=
  upd7 (upd7 (upd7 (fun _ => false) (get2 s.cards p)) (3 + get2 s.pot p))
    (5 + get2 s.pot (1 - p))

/-- An example opening state: player 1 to act first, deal (Jack, King). -/
def sOpen : State :=
  ⟨1, (0, 2), -1, (false, true, false, true), false, (0, 0), (0, 0)⟩

/-- The same opening state with player 1's hidden card Queen instead. -/
def sOpenAlt : State :=
  ⟨1, (0, 1), -1, (false, true, false, true), false, (0, 0), (0, 0)⟩

/-- An example state facing a bet: player 0 bet, player 1 to respond. -/
def sFacingBet : State :=
  ⟨1, (0, 2), 1, (true, false, true, false), false, (0, 0), (1, 0)⟩

/-- An example state after an opening check by player 0. -/
def sAfterCheck : State :=
  ⟨1, (0, 2), 3, (false, true, false, true), false, (0, 0), (0, 0)⟩

/-- States reachable by legal play: an initial state, or a legal `step`
    out of a reachable state. -/
inductive Reachable : State → Prop
  | base (b : Fin 2) (d : Fin 6) : Reachable (init b d)
  | move (s : State) (a : Fin 4) (hr : Reachable s)
      (hl : maskGet s.legal_action_mask a = true) : Reachable (step s a)

/-- The inductive invariant of legal play: pot entries stay in `{0, 1}`,
    cards are the two distinct dealt ranks, `last_action` ranges over the
    sentinel and the four action codes, and the mask and pot are the ones
    the engine computes for this `last_action` (bettor has 1 chip in when a
    bet is outstanding). -/
def Inv (s : State) : Prop :=
  (s.pot.1 = 0 ∨ s.pot.1 = 1) ∧
  (s.pot.2 = 0 ∨ s.pot.2 = 1) ∧
  s.cards.1 ≠ s.cards.2 ∧
  (s.cards.1 = 0 ∨ s.cards.1 = 1 ∨ s.cards.1 = 2) ∧
  (s.cards.2 = 0 ∨ s.cards.2 = 1 ∨ s.cards.2 = 2) ∧
  (s.last_action = -1 ∨ s.last_action = 0 ∨ s.last_action = 1 ∨
    s.last_action = 2 ∨ s.last_action = 3) ∧
  (s.last_action = -1 →
    s.pot = (0, 0) ∧ s.legal_action_mask = (false, true, false, true)) ∧
  (s.last_action = 3 →
    s.pot = (0, 0) ∧ s.legal_action_mask = (false, true, false, true)) ∧
  (s.last_action = 1 →
    get2 s.pot s.current_player = 0 ∧
    get2 s.pot (1 - s.current_player) = 1 ∧
    s.legal_action_mask = (true, false, true, false)) ∧
  (s.last_action = 0 →
    s.legal_action_mask = (false, false, false, false)) ∧
  (s.last_action = 2 →
    s.legal_action_mask = (false, false, false, false))

/-- C6: for every random draw (`b`: first-player bit, `d`: deal choice),
    `init` returns a non-terminated state with pot `(0, 0)`, `last_action`
    equal to the `-1` "none" sentinel, a legal-action mask in which exactly
    Bet and Check are legal, and two distinct cards from `{0, 1, 2}`. -/
theorem init_spec (b : Fin 2) (d : Fin 6) :
    (init b d).terminated = false ∧
    (init b d).pot = (0, 0) ∧
    (init b d).last_action = -1 ∧
    (init b d).legal_action_mask = (false, true, false, true) ∧
    (init b d).cards.1 ≠ (init b d).cards.2 ∧
    ((init b d).cards.1 = 0 ∨ (init b d).cards.1 = 1 ∨ (init b d).cards.1 = 2) ∧
    ((init b d).cards.2 = 0 ∨ (init b d).cards.2 = 1 ∨ (init b d).cards.2 = 2) := by
  revert b d
  decide

/-- C2: stepping with Fold terminates the hand, with reward `-1` for the
    acting player and `+1` for the opponent, for every state whatever the
    cards are. -/
theorem fold_payoff (s : State) :
    (step s FOLD).terminated = true ∧
    get2 (step s FOLD).rewards s.current_player = -1 ∧
    get2 (step s FOLD).rewards (1 - s.current_player) = 1 := by
  obtain ⟨cp, cards, la, mask, term, rew, pot⟩ := s
  fin_cases cp <;>
    simp [step, CALL, BET, FOLD, CHECK, get2, set2, mul2]

/-- C3: for every state and every action, the stepped state's rewards sum
    to zero. -/
theorem zero_sum (s : State) (a : Fin 4) :
    (step s a).rewards.1 + (step s a).rewards.2 = 0 := by
  obtain ⟨cp, cards, la, mask, term, rew, pot⟩ := s
  fin_cases a <;> fin_cases cp <;>
    simp [step, CALL, BET, FOLD, CHECK, get_unit_reward, get2, set2, mul2] <;>
    split_ifs <;> norm_num

/-- C4: for every state and every action, the stepped state either has
    rewards exactly `(0, 0)` (in particular whenever it is not terminated),
    or is terminated with the two rewards additive inverses of magnitude
    1 or 2. -/
theorem reward_shape (s : State) (a : Fin 4) :
    (step s a).rewards = (0, 0) ∨
    ((step s a).terminated = true ∧
      ((step s a).rewards = (1, -1) ∨ (step s a).rewards = (-1, 1) ∨
        (step s a).rewards = (2, -2) ∨ (step s a).rewards = (-2, 2))) := by
  obtain ⟨cp, cards, la, mask, term, rew, pot⟩ := s
  fin_cases a <;> fin_cases cp <;>
    simp [step, CALL, BET, FOLD, CHECK, get_unit_reward, get2, set2, mul2] <;>
    split_ifs <;> simp

/-- C1: if the last action was Bet (code 1), stepping with Call terminates
    the hand with `+2` to the holder of the strictly higher card and `-2`
    to the other; if the last action was Check (code 3), stepping with
    Check terminates with `+1` / `-1` likewise. -/
theorem showdown_payoffs (s : State) (p : Fin 2) :
    (s.last_action = 1 → get2 s.cards p > get2 s.cards (1 - p) →
      (step s CALL).terminated = true ∧
      get2 (step s CALL).rewards p = 2 ∧
      get2 (step s CALL).rewards (1 - p) = -2) ∧
    (s.last_action = 3 → get2 s.cards p > get2 s.cards (1 - p) →
      (step s CHECK).terminated = true ∧
      get2 (step s CHECK).rewards p = 1 ∧
      get2 (step s CHECK).rewards (1 - p) = -1) := by
  obtain ⟨cp, cards, la, mask, term, rew, pot⟩ := s
  fin_cases cp <;> fin_cases p <;>
    refine ⟨fun hla hgt => ?_, fun hla hgt => ?_⟩ <;>
      simp_all [step, CALL, BET, FOLD, CHECK, get_unit_reward, get2, set2,
        mul2] <;>
      split_ifs <;> simp_all <;> omega

/-- Witness for C1 at two concrete states: player 1 holds the King and
    wins the Bet→Call showdown for 2 and the Check→Check showdown for 1. -/
theorem showdown_payoffs_witness :
    ((step sFacingBet CALL).terminated = true ∧
      get2 (step sFacingBet CALL).rewards 1 = 2 ∧
      get2 (step sFacingBet CALL).rewards (1 - 1) = -2) ∧
    ((step sAfterCheck CHECK).terminated = true ∧
      get2 (step sAfterCheck CHECK).rewards 1 = 1 ∧
      get2 (step sAfterCheck CHECK).rewards (1 - 1) = -1) :=
  ⟨(showdown_payoffs sFacingBet 1).1 rfl (by decide),
   (showdown_payoffs sAfterCheck 1).2 rfl (by decide)⟩

/-- C8: `observe` for player `p` is unchanged between two states that agree
    on everything except the opponent's private card. -/
theorem observe_hides_opponent_card (s t : State) (p : Fin 2)
    (hcp : s.current_player = t.current_player)
    (hcard : get2 s.cards p = get2 t.cards p)
    (hla : s.last_action = t.last_action)
    (hmask : s.legal_action_mask = t.legal_action_mask)
    (hterm : s.terminated = t.terminated)
    (hrew : s.rewards = t.rewards)
    (hpot : s.pot = t.pot) :
    observe s p = observe t p := by
  simp [observe, hcard, hpot]

/-- Witness for C8: two opening states differing only in player 1's card
    give player 0 the same observation. -/
theorem observe_hides_opponent_card_witness :
    observe sOpen 0 = observe sOpenAlt 0 :=
  observe_hides_opponent_card sOpen sOpenAlt 0 rfl rfl rfl rfl rfl rfl rfl

/-- On in-range inputs (card 0..2, pot entries 0..1) the three scatter
    updates of `_observe` mark exactly the slots whose index is the card,
    `3 +` own pot, or `5 +` opponent pot. -/
theorem obs_spec (c q r : Int)
    (hc : c = 0 ∨ c = 1 ∨ c = 2) (hq : q = 0 ∨ q = 1) (hr : r = 0 ∨ r = 1) :
    (∀ j : Fin 7,
      upd7 (upd7 (upd7 (fun _ => false) c) (3 + q)) (5 + r) j = true ↔
        ((j.val : Int) = c ∨ (j.val : Int) = 3 + q ∨ (j.val : Int) = 5 + r)) ∧
    (Finset.univ.filter
      (fun j : Fin 7 =>
        upd7 (upd7 (upd7 (fun _ => false) c) (3 + q)) (5 + r) j = true)).card
      = 3 := by
  rcases hc with rfl | rfl | rfl <;> rcases hq with rfl | rfl <;>
    rcases hr with rfl | rfl <;> decide

/-- C7: on a valid state (cards in `{0,1,2}`, pot entries in `{0,1}`) the
    observation for player `p` has exactly three true entries among its 7
    slots: `p`'s own card slot, slot `3 + pot[p]`, and slot
    `5 + pot[opponent]`. -/
theorem observe_onehot (s : State) (p : Fin 2)
    (hc1 : s.cards.1 = 0 ∨ s.cards.1 = 1 ∨ s.cards.1 = 2)
    (hc2 : s.cards.2 = 0 ∨ s.cards.2 = 1 ∨ s.cards.2 = 2)
    (hq1 : s.pot.1 = 0 ∨ s.pot.1 = 1)
    (hq2 : s.pot.2 = 0 ∨ s.pot.2 = 1) :
    (∀ j : Fin 7, observe s p j = true ↔
      ((j.val : Int) = get2 s.cards p ∨
        (j.val : Int) = 3 + get2 s.pot p ∨
        (j.val : Int) = 5 + get2 s.pot (1 - p))) ∧
    (Finset.univ.filter (fun j : Fin 7 => observe s p j = true)).card = 3 := by
  have hc : get2 s.cards p = 0 ∨ get2 s.cards p = 1 ∨ get2 s.cards p = 2 := by
    fin_cases p <;> simp [get2] <;> tauto
  have hq : get2 s.pot p = 0 ∨ get2 s.pot p = 1 := by
    fin_cases p <;> simp [get2] <;> tauto
  have hr : get2 s.pot (1 - p) = 0 ∨ get2 s.pot (1 - p) = 1 := by
    fin_cases p <;> simp [get2] <;> tauto
  exact obs_spec _ _ _ hc hq hr

/-- Witness for C7 at a concrete opening state, slot 0 of player 0's
    observation. -/
theorem observe_onehot_witness :
    (observe sOpen 0 (0 : Fin 7) = true ↔
      (((0 : Fin 7).val : Int) = get2 sOpen.cards 0 ∨
        ((0 : Fin 7).val : Int) = 3 + get2 sOpen.pot 0 ∨
        ((0 : Fin 7).val : Int) = 5 + get2 sOpen.pot (1 - 0))) ∧
    (Finset.univ.filter (fun j : Fin 7 => observe sOpen 0 j = true)).card
      = 3 :=
  ⟨(observe_onehot sOpen 0 (by decide) (by decide) (by decide) (by decide)).1
      (0 : Fin 7),
   (observe_onehot sOpen 0 (by decide) (by decide) (by decide) (by decide)).2⟩

/-- Every initial state satisfies the inductive invariant. -/
theorem inv_init (b : Fin 2) (d : Fin 6) : Inv (init b d) := by
  fin_cases d <;> simp [Inv, init, deals]

/-- A legal step preserves the inductive invariant. -/
theorem inv_step (s : State) (a : Fin 4) (h : Inv s)
    (hl : maskGet s.legal_action_mask a = true) : Inv (step s a) := by
  obtain ⟨cp, cards, la, mask, term, rew, pot⟩ := s
  obtain ⟨h1, h2, h3, h4, h5, hrange, hnone, hchk, hbet, hcall, hfold⟩ := h
  rcases hrange with rfl | rfl | rfl | rfl | rfl <;>
    fin_cases a <;> fin_cases cp <;>
      simp_all [Inv, step, maskGet, maskSwitch, get2, set2, mul2, CALL, BET,
        FOLD, CHECK]

/-- Every reachable state satisfies the inductive invariant. -/
theorem reachable_inv (s : State) (h : Reachable s) : Inv s := by
  induction h with
  | base b d => exact inv_init b d
  | move s a hr hl ih => exact inv_step s a ih hl

/-- C5: the next legal-action mask is a pure function of the action just
    taken (all-false after Call and Fold, `{Call, Fold}` after Bet,
    `{Bet, Check}` after Check); a legal step out of a reachable state
    either terminates or leaves at least one legal action; and Call or
    Fold can only be legal when `last_action` is Bet. -/
theorem mask_table :
    (∀ s : State,
      (step s CALL).legal_action_mask = (false, false, false, false) ∧
      (step s BET).legal_action_mask = (true, false, true, false) ∧
      (step s FOLD).legal_action_mask = (false, false, false, false) ∧
      (step s CHECK).legal_action_mask = (false, true, false, true)) ∧
    (∀ (s : State) (a : Fin 4), Reachable s →
      maskGet s.legal_action_mask a = true →
      (step s a).terminated = false →
      ∃ b : Fin 4, maskGet (step s a).legal_action_mask b = true) ∧
    (∀ (s : State) (a : Fin 4),
      maskGet (step s a).legal_action_mask CALL = true ∨
      maskGet (step s a).legal_action_mask FOLD = true →
      (step s a).last_action = 1) := by
  refine ⟨fun s => ⟨rfl, rfl, rfl, rfl⟩, ?_, ?_⟩
  · intro s a hr hl hnt
    obtain ⟨_, _, _, _, _, hrange, hnone, hchk, hbet, hcall, hfold⟩ :=
      reachable_inv s hr
    fin_cases a
    · exfalso
      rcases hrange with h | h | h | h | h <;>
        first
          | (simp [maskGet, (hnone h).2] at hl)
          | (simp [maskGet, (hchk h).2] at hl)
          | (simp [maskGet, (hcall h)] at hl)
          | (simp [maskGet, (hfold h)] at hl)
          | (simp [step, h, CALL, BET, FOLD, CHECK] at hnt)
    · exact ⟨CALL, rfl⟩
    · exfalso
      simp [step, CALL, BET, FOLD, CHECK] at hnt
    · exact ⟨BET, rfl⟩
  · intro s a h
    fin_cases a
    · simp [step, maskSwitch, maskGet, CALL, FOLD] at h
    · rfl
    · simp [step, maskSwitch, maskGet, CALL, FOLD] at h
    · simp [step, maskSwitch, maskGet, CALL, FOLD] at h

/-- Witness for C5: the opening Bet from an initial state is legal, does
    not terminate, and leaves a legal response; Call is legal after it,
    so `last_action` is Bet. -/
theorem mask_table_witness :
    (step (init 0 0) CALL).legal_action_mask
      = (false, false, false, false) ∧
    (∃ b : Fin 4,
      maskGet (step (init 0 0) BET).legal_action_mask b = true) ∧
    (step (init 0 0) BET).last_action = 1 :=
  ⟨(mask_table.1 (init 0 0)).1,
   mask_table.2.1 (init 0 0) BET (Reachable.base 0 0) (by decide) (by decide),
   mask_table.2.2 (init 0 0) BET (Or.inl (by decide))⟩

/-- C9: in every reachable state each pot entry is 0 or 1, and the three
    indices written by `observe` (own card in 0..2, `3 +` own pot,
    `5 +` opponent pot) are pairwise distinct and inside the 7-slot
    vector, for either player. -/
theorem reachable_pot_bound (s : State) (h : Reachable s) :
    ((s.pot.1 = 0 ∨ s.pot.1 = 1) ∧ (s.pot.2 = 0 ∨ s.pot.2 = 1)) ∧
    ∀ p : Fin 2,
      (0 ≤ get2 s.cards p ∧ get2 s.cards p < 7) ∧
      (0 ≤ 3 + get2 s.pot p ∧ 3 + get2 s.pot p < 7) ∧
      (0 ≤ 5 + get2 s.pot (1 - p) ∧ 5 + get2 s.pot (1 - p) < 7) ∧
      get2 s.cards p ≠ 3 + get2 s.pot p ∧
      get2 s.cards p ≠ 5 + get2 s.pot (1 - p) ∧
      3 + get2 s.pot p ≠ 5 + get2 s.pot (1 - p) := by
  obtain ⟨h1, h2, h3, h4, h5, -⟩ := reachable_inv s h
  refine ⟨⟨h1, h2⟩, fun p => ?_⟩
  fin_cases p <;> simp [get2] <;> omega

/-- Witness for C9 at an initial state, player 0's indices. -/
theorem reachable_pot_bound_witness :
    (((init 0 0).pot.1 = 0 ∨ (init 0 0).pot.1 = 1) ∧
      ((init 0 0).pot.2 = 0 ∨ (init 0 0).pot.2 = 1)) ∧
    ((0 ≤ get2 (init 0 0).cards 0 ∧ get2 (init 0 0).cards 0 < 7) ∧
      (0 ≤ 3 + get2 (init 0 0).pot 0 ∧ 3 + get2 (init 0 0).pot 0 < 7) ∧
      (0 ≤ 5 + get2 (init 0 0).pot (1 - 0) ∧
        5 + get2 (init 0 0).pot (1 - 0) < 7) ∧
      get2 (init 0 0).cards 0 ≠ 3 + get2 (init 0 0).pot 0 ∧
      get2 (init 0 0).cards 0 ≠ 5 + get2 (init 0 0).pot (1 - 0) ∧
      3 + get2 (init 0 0).pot 0 ≠ 5 + get2 (init 0 0).pot (1 - 0)) :=
  ⟨(reachable_pot_bound (init 0 0) (Reachable.base 0 0)).1,
   (reachable_pot_bound (init 0 0) (Reachable.base 0 0)).2 0⟩

/-- C10: `step` never changes the cards, so the distinct-cards property
    established by `init` holds in every reachable state (no showdown tie
    is possible). -/
theorem step_preserves_cards :
    (∀ (s : State) (a : Fin 4), (step s a).cards = s.cards) ∧
    (∀ s : State, Reachable s → s.cards.1 ≠ s.cards.2) := by
  refine ⟨fun s a => rfl, fun s h => ?_⟩
  exact (reachable_inv s h).2.2.1

/-- Witness for C10: a Bet out of an initial state keeps the cards, and
    the initial cards are distinct. -/
theorem step_preserves_cards_witness :
    (step (init 0 0) BET).cards = (init 0 0).cards ∧
    (init 0 0).cards.1 ≠ (init 0 0).cards.2 :=
  ⟨step_preserves_cards.1 (init 0 0) BET,
   step_preserves_cards.2 (init 0 0) (Reachable.base 0 0)⟩

end KuhnPoker
